import Mathlib

/-!
Shallow embedding of the employee report scoring engine from
`src-tauri/src/commands/report.rs`.

Text is modelled as `List Char`.  Numeric scores are modelled as exact
rationals `ℚ`; every constant the engine uses (weights, caps, 0.17, …) is
exactly representable, and the engine only adds, multiplies, divides and
compares a handful of such values per report, so the exact-rational layer
mirrors the `f64` computation except for non-finite values.  Non-finite
(`NaN`/`∞`) behaviour is analysed separately in the `FP` namespace below
with an explicit float-value type.
-/

namespace Report

/-- Unicode NFD decomposition of one character, modelling the
`unicode_normalization` crate's `nfd()` on the character set this engine
exercises: ASCII and other non-decomposable characters map to themselves,
and the listed Latin letters decompose to base letter plus combining mark. -/
def nfdChar (c : Char) : List Char :=
  if c = 'à' then ['a', '\u0300'] else
  if c = 'á' then ['a', '\u0301'] else
  if c = 'â' then ['a', '\u0302'] else
  if c = 'ä' then ['a', '\u0308'] else
  if c = 'è' then ['e', '\u0300'] else
  if c = 'é' then ['e', '\u0301'] else
  if c = 'ê' then ['e', '\u0302'] else
  if c = 'ë' then ['e', '\u0308'] else
  if c = 'ì' then ['i', '\u0300'] else
  if c = 'í' then ['i', '\u0301'] else
  if c = 'ò' then ['o', '\u0300'] else
  if c = 'ó' then ['o', '\u0301'] else
  if c = 'ö' then ['o', '\u0308'] else
  if c = 'ù' then ['u', '\u0300'] else
  if c = 'ú' then ['u', '\u0301'] else
  if c = 'ü' then ['u', '\u0308'] else
  if c = 'ñ' then ['n', '\u0303'] else
  if c = 'ç' then ['c', '\u0327'] else
  if c = 'À' then ['A', '\u0300'] else
  if c = 'É' then ['E', '\u0301'] else
  if c = 'Í' then ['I', '\u0301'] else
  if c = 'Ó' then ['O', '\u0301'] else
  if c = 'Ü' then ['U', '\u0308'] else
  if c = 'Ñ' then ['N', '\u0303'] else
  [c]

/-- Models `unicode_normalization::char::is_combining_mark` by the Unicode
combining-mark blocks (Combining Diacritical Marks and its extensions). -/
def isCombiningMark (c : Char) : Bool :=
  (0x300 ≤ c.toNat && c.toNat ≤ 0x36F) ||
  (0x1AB0 ≤ c.toNat && c.toNat ≤ 0x1AFF) ||
  (0x1DC0 ≤ c.toNat && c.toNat ≤ 0x1DFF) ||
  (0x20D0 ≤ c.toNat && c.toNat ≤ 0x20FF) ||
  (0xFE20 ≤ c.toNat && c.toNat ≤ 0xFE2F)

/-- Models Rust `char` lowercasing on the characters the engine exercises
(ASCII letters; other characters are left unchanged, and after NFD plus
mark-stripping the table above only produces ASCII base letters). -/
def toLowerChar (c : Char) : Char :=
  if 65 ≤ c.toNat && c.toNat ≤ 90 then Char.ofNat (c.toNat + 32) else c

/-- Models Rust `char::is_ascii_alphabetic`. -/
def isAsciiAlphabetic (c : Char) : Bool :=
  (65 ≤ c.toNat && c.toNat ≤ 90) || (97 ≤ c.toNat && c.toNat ≤ 122)

/-- Models Rust `char::is_whitespace` (the Unicode `White_Space` set). -/
def isRustWhitespace (c : Char) : Bool :=
  c.toNat == 0x20 || (0x9 ≤ c.toNat && c.toNat ≤ 0xD) ||
  c.toNat == 0x85 || c.toNat == 0xA0 || c.toNat == 0x1680 ||
  (0x2000 ≤ c.toNat && c.toNat ≤ 0x200A) ||
  c.toNat == 0x2028 || c.toNat == 0x2029 || c.toNat == 0x202F ||
  c.toNat == 0x205F || c.toNat == 0x3000

/-- `normalize_text` from report.rs: NFD-decompose, drop combining marks,
lowercase, then keep only ASCII-alphabetic or whitespace characters. -/
def normalize_text (value : List Char) : List Char :=
  (((value.map nfdChar).flatten.filter (fun c => !isCombiningMark c)).map toLowerChar).filter
    (fun c => isAsciiAlphabetic c || isRustWhitespace c)

/-- Models Rust `str::starts_with` on char lists. -/
def startsWith : List Char → List Char → Bool
  | _, [] => true
  | [], _ :: _ => false
  | c :: rest, d :: ds => c == d && startsWith rest ds

/-- Models Rust `str::contains` (substring test) on char lists. -/
def containsSub (hay needle : List Char) : Bool :=
  match hay with
  | [] => needle.isEmpty
  | _ :: rest => startsWith hay needle || containsSub rest needle

/-- The `Employee` columns read by this engine (report.rs reads only the
role text fields and the rank code; ids, name and timestamps are unused). -/
structure Employee where
  gol : Option (List Char)
  jabatan : Option (List Char)
  sub_jabatan : Option (List Char)

inductive PositionType
  | Eselon
  | Staff
deriving DecidableEq

/-- Models Rust `str::trim` (strip leading and trailing whitespace). -/
def trimChars (s : List Char) : List Char :=
  ((s.dropWhile isRustWhitespace).reverse.dropWhile isRustWhitespace).reverse

/-- Models Rust `char` uppercasing on the ASCII characters rank codes use. -/
def toUpperChar (c : Char) : Char :=
  if 97 ≤ c.toNat && c.toNat ≤ 122 then Char.ofNat (c.toNat - 32) else c

def STAFF_KEYWORDS : List (List Char) := ["staff".data, "staf".data]

def ESELON_KEYWORDS : List (List Char) :=
  ["eselon".data, "kepala".data, "sekretaris".data, "kabid".data, "kabag".data,
   "kasubag".data, "kepala seksi".data, "kasi".data, "koordinator".data,
   "pengawas".data, "sub bagian".data, "subbagian".data, "subbidang".data,
   "sub bidang".data]

/-- The `gol` fallback of `determine_position_type`:
`gol.trim().to_uppercase().starts_with("IV")`, false when `gol` is absent. -/
def golStartsWithIV (gol : Option (List Char)) : Bool :=
  match gol with
  | some g => startsWith ((trimChars g).map toUpperChar) ['I', 'V']
  | none => false

/-- `determine_position_type` from report.rs: concatenate `jabatan` and
`sub_jabatan` with a space (`format!`), normalize, check staff keywords then
Eselon keywords (only when the normalized text is nonempty), then fall back
to the rank code. -/
def determine_position_type (e : Employee) : PositionType :=
  let combined := e.jabatan.getD [] ++ [' '] ++ e.sub_jabatan.getD []
  let normalized := normalize_text combined
  if !normalized.isEmpty &&
      STAFF_KEYWORDS.any (fun k => containsSub normalized (normalize_text k)) then
    PositionType.Staff
  else if !normalized.isEmpty &&
      ESELON_KEYWORDS.any (fun k => containsSub normalized (normalize_text k)) then
    PositionType.Eselon
  else if golStartsWithIV e.gol then
    PositionType.Eselon
  else
    PositionType.Staff

def PERILAKU_CAP : ℚ := 25.5
def KUALITAS_CAP_ESELON : ℚ := 42.5
def KUALITAS_CAP_STAFF : ℚ := 70.0
def LEADERSHIP_WEIGHT : ℚ := 0.17
def DEFAULT_LEADERSHIP_SCORE : ℚ := 80.0
def TOTAL_CAP : ℚ := 85.0

/-- Rust `f64::clamp(lo, hi)` on finite values. -/
def clampQ (lo hi v : ℚ) : ℚ := max lo (min hi v)

/-- `clamp_score` from report.rs on finite values (the non-finite guard is
analysed in the `FP` namespace; in this exact layer every value is finite). -/
def clamp_score (v : ℚ) : ℚ := clampQ 0 100 v

/-- `determine_scale` from report.rs: fold `f64::max` from 0 over the raw
values, then pick the scale by ascending thresholds. -/
def determine_scale (values : List ℚ) : ℚ :=
  let m := values.foldl (fun current value => max current value) 0
  if m ≤ 0 then 100
  else if m ≤ 5 then 4
  else if m ≤ 10 then 10
  else if m ≤ 20 then 20
  else if m ≤ 100 then 100
  else m

structure CompetencyScore where
  name : List Char
  raw_score : ℚ
  original_score : ℚ
deriving DecidableEq

/-- The per-score normalization step of `normalize_competencies`. -/
def normalizeValue (scale original : ℚ) : ℚ :=
  if scale ≤ 0 then 0 else clampQ 0 100 ((original / scale) * 100)

/-- `normalize_competencies` from report.rs over already-parsed values: the
entries pair each competency name with the output of `parse_numeric_score`
(the parse itself, which is where non-finite values can arise, is modelled
in the `FP` namespace). -/
def normalize_competencies (entries : List (List Char × ℚ)) :
    List CompetencyScore × ℚ :=
  let scale := determine_scale (entries.map Prod.snd)
  (entries.map (fun e => ⟨e.1, normalizeValue scale e.2, e.2⟩), scale)

structure WeightedParameter where
  parameter : List Char
  weight : ℚ
  aliases : List (List Char)
deriving DecidableEq

structure DualWeightedParameter where
  parameter : List Char
  eselon_weight : ℚ
  staff_weight : ℚ
  aliases : List (List Char)
deriving DecidableEq

def PERILAKU_PARAMS : List WeightedParameter :=
  [⟨"Inisiatif dan fleksibilitas".data, 5,
    ["inisiatif".data, "initiative".data, "fleksibilitas".data, "flexibility".data]⟩,
   ⟨"Kehadiran dan ketepatan waktu".data, 5,
    ["kehadiran".data, "ketepatan waktu".data, "attendance".data,
     "punctuality".data, "absensi".data]⟩,
   ⟨"Kerjasama dan team work".data, 5,
    ["kerjasama".data, "team work".data, "teamwork".data, "kolaborasi".data,
     "team".data]⟩,
   ⟨"Manajemen waktu kerja".data, 5,
    ["manajemen waktu".data, "time management".data]⟩,
   ⟨"Kepemimpinan".data, 10,
    ["kepemimpinan".data, "leadership".data, "leader".data]⟩]

def KUALITAS_PARAMS : List DualWeightedParameter :=
  [⟨"Kualitas kinerja".data, 25.5, 42.5,
    ["kualitas kinerja".data, "kinerja".data, "quality of work".data,
     "quality".data]⟩,
   ⟨"Kemampuan berkomunikasi".data, 8.5, 8.5,
    ["komunikasi".data, "communication".data]⟩,
   ⟨"Pemahaman tentang permasalahan sosial".data, 8.5, 8.5,
    ["permasalahan sosial".data, "social issues".data, "social problem".data,
     "pemahaman sosial".data]⟩]

structure ScoreComponent where
  parameter : List Char
  raw_score : ℚ
  weight_percentage : ℚ
  weighted_score : ℚ
deriving DecidableEq

structure ComponentResult where
  subtotal : ℚ
  breakdown : List ScoreComponent
deriving DecidableEq

/-- `to_component` from report.rs. -/
def to_component (parameter : List Char) (raw_score weight_percentage : ℚ) :
    ScoreComponent :=
  ⟨parameter, raw_score, weight_percentage, raw_score * weight_percentage / 100⟩

/-- `find_competency_score` from report.rs: empty list returns 0; otherwise
build the normalized targets (canonical name first, then aliases) and return
the clamped normalized value of the first score whose normalized name
contains some target, else 0. -/
def find_competency_score (scores : List CompetencyScore)
    (parameter : List Char) (aliases : List (List Char)) : ℚ :=
  if scores.isEmpty then 0
  else
    let targets := normalize_text parameter :: aliases.map normalize_text
    match scores.find? (fun s =>
        targets.any (fun t => containsSub (normalize_text s.name) t)) with
    | some s => clamp_score s.raw_score
    | none => 0

/-- `calculate_perilaku_kinerja` from report.rs. -/
def calculate_perilaku_kinerja (scores : List CompetencyScore) : ComponentResult :=
  let breakdown := PERILAKU_PARAMS.map (fun param =>
    to_component param.parameter
      (find_competency_score scores param.parameter param.aliases) param.weight)
  ⟨min ((breakdown.map ScoreComponent.weighted_score).sum) PERILAKU_CAP, breakdown⟩

/-- `calculate_kualitas_kerja` from report.rs. -/
def calculate_kualitas_kerja (scores : List CompetencyScore)
    (position_type : PositionType) : ComponentResult :=
  let breakdown := KUALITAS_PARAMS.map (fun param =>
    to_component param.parameter
      (find_competency_score scores param.parameter param.aliases)
      (match position_type with
       | PositionType.Eselon => param.eselon_weight
       | PositionType.Staff => param.staff_weight))
  let cap := match position_type with
    | PositionType.Eselon => KUALITAS_CAP_ESELON
    | PositionType.Staff => KUALITAS_CAP_STAFF
  ⟨min ((breakdown.map ScoreComponent.weighted_score).sum) cap, breakdown⟩

structure LeadershipScoreResult where
  raw_score : ℚ
  weighted_score : ℚ
  applied : Bool
deriving DecidableEq

/-- `compute_leadership_score` from report.rs. -/
def compute_leadership_score (position_type : PositionType)
    (has_performance_data : Bool) (override_score : Option ℚ) :
    Option LeadershipScoreResult :=
  match position_type with
  | PositionType.Staff => none
  | PositionType.Eselon =>
    if !has_performance_data then
      some ⟨0, 0, false⟩
    else
      let raw := clamp_score (override_score.getD DEFAULT_LEADERSHIP_SCORE)
      some ⟨raw, raw * LEADERSHIP_WEIGHT, true⟩

/-- The `has_performance_data` flag computed in `build_report_context`:
at least one normalized score exists and some section subtotal is positive. -/
def has_performance_data (normalization_result : List CompetencyScore)
    (perilaku kualitas : ComponentResult) : Bool :=
  !normalization_result.isEmpty &&
    (decide (perilaku.subtotal > 0) || decide (kualitas.subtotal > 0))

/-- `calculate_total_score` from report.rs. -/
def calculate_total_score (position_type : PositionType)
    (perilaku kualitas : ComponentResult)
    (leadership : Option LeadershipScoreResult) : ℚ :=
  let leadership_contrib := match position_type with
    | PositionType.Eselon => (leadership.map LeadershipScoreResult.weighted_score).getD 0
    | PositionType.Staff => 0
  min (perilaku.subtotal + kualitas.subtotal + leadership_contrib) TOTAL_CAP

/-- `get_performance_rating` from report.rs. -/
def get_performance_rating (total_score : ℚ) : String :=
  if 80 ≤ total_score then "Sangat Baik"
  else if 70 ≤ total_score then "Baik"
  else if 60 ≤ total_score then "Kurang Baik"
  else "Perlu Pembinaan"

/-!
The `FP` namespace models the `f64` values flowing through
`parse_numeric_score`, `determine_scale` and `normalize_competencies`,
keeping the non-finite values (`NaN`, `±∞`) explicit.  Finite arithmetic is
exact (rounding ignored); the `NaN`/`∞` propagation rules are those of IEEE
754 `f64` as implemented by Rust (`max` ignores a `NaN` operand, comparisons
with `NaN` are false, `∞/∞` and `0*∞` are `NaN`, `clamp` of `NaN` is `NaN`).
Signed zero is collapsed to `0`.
-/
namespace FP

inductive FVal
  | fin (q : ℚ)
  | nan
  | inf
  | ninf
deriving DecidableEq

/-- Rust `f64::is_finite`. -/
def FVal.isFinite : FVal → Bool
  | FVal.fin _ => true
  | _ => false

/-- Rust `f64::max`: returns the other operand when one is `NaN`. -/
def FVal.fmax : FVal → FVal → FVal
  | FVal.nan, b => b
  | a, FVal.nan => a
  | FVal.inf, _ => FVal.inf
  | _, FVal.inf => FVal.inf
  | FVal.ninf, b => b
  | a, FVal.ninf => a
  | FVal.fin a, FVal.fin b => FVal.fin (max a b)

/-- Rust `f64` `<=`: false whenever an operand is `NaN`. -/
def FVal.fle : FVal → FVal → Bool
  | FVal.nan, _ => false
  | _, FVal.nan => false
  | FVal.ninf, _ => true
  | _, FVal.ninf => false
  | _, FVal.inf => true
  | FVal.inf, _ => false
  | FVal.fin a, FVal.fin b => a ≤ b

/-- Rust `f64` division (finite part exact, signed zero collapsed). -/
def FVal.fdiv : FVal → FVal → FVal
  | FVal.nan, _ => FVal.nan
  | _, FVal.nan => FVal.nan
  | FVal.inf, FVal.inf => FVal.nan
  | FVal.inf, FVal.ninf => FVal.nan
  | FVal.ninf, FVal.inf => FVal.nan
  | FVal.ninf, FVal.ninf => FVal.nan
  | FVal.inf, FVal.fin b => if b < 0 then FVal.ninf else FVal.inf
  | FVal.ninf, FVal.fin b => if b < 0 then FVal.inf else FVal.ninf
  | FVal.fin _, FVal.inf => FVal.fin 0
  | FVal.fin _, FVal.ninf => FVal.fin 0
  | FVal.fin a, FVal.fin b =>
    if b = 0 then
      if a = 0 then FVal.nan else if a < 0 then FVal.ninf else FVal.inf
    else FVal.fin (a / b)

/-- Rust `f64` multiplication (finite part exact). -/
def FVal.fmul : FVal → FVal → FVal
  | FVal.nan, _ => FVal.nan
  | _, FVal.nan => FVal.nan
  | FVal.inf, FVal.inf => FVal.inf
  | FVal.inf, FVal.ninf => FVal.ninf
  | FVal.ninf, FVal.inf => FVal.ninf
  | FVal.ninf, FVal.ninf => FVal.inf
  | FVal.inf, FVal.fin b =>
    if b = 0 then FVal.nan else if b < 0 then FVal.ninf else FVal.inf
  | FVal.fin a, FVal.inf =>
    if a = 0 then FVal.nan else if a < 0 then FVal.ninf else FVal.inf
  | FVal.ninf, FVal.fin b =>
    if b = 0 then FVal.nan else if b < 0 then FVal.inf else FVal.ninf
  | FVal.fin a, FVal.ninf =>
    if a = 0 then FVal.nan else if a < 0 then FVal.inf else FVal.ninf
  | FVal.fin a, FVal.fin b => FVal.fin (a * b)

/-- Rust `f64::clamp(lo, hi)` with finite bounds: `NaN` stays `NaN`. -/
def FVal.fclamp (lo hi : ℚ) : FVal → FVal
  | FVal.nan => FVal.nan
  | FVal.inf => FVal.fin hi
  | FVal.ninf => FVal.fin lo
  | FVal.fin a => FVal.fin (max lo (min hi a))

/-- The numeric fields of one `ScoreWithCompetency` row as
`parse_numeric_score` sees them.  `numeric_value` is the pre-parsed column;
`raw_parsed` is the result of `raw_value.replace(',', ".").parse::<f64>()`
(`none` = parse error).  Rust's `f64` parser accepts `"NaN"`, `"inf"` and
`"infinity"` (case-insensitively) and saturates overflowing decimals to
`∞`, so `raw_parsed` can be non-finite. -/
structure ScoreInput where
  name : List Char
  numeric_value : Option FVal
  raw_parsed : Option FVal

/-- `parse_numeric_score` from report.rs: use `numeric_value` only when it
is finite, otherwise fall back to the parse of `raw_value`, defaulting to 0
only when that parse fails. -/
def parse_numeric_score (s : ScoreInput) : FVal :=
  match s.numeric_value with
  | some v => if v.isFinite then v else s.raw_parsed.getD (FVal.fin 0)
  | none => s.raw_parsed.getD (FVal.fin 0)

/-- `determine_scale` from report.rs over `f64` values. -/
def determine_scale (values : List FVal) : FVal :=
  let m := values.foldl FVal.fmax (FVal.fin 0)
  if m.fle (FVal.fin 0) then FVal.fin 100
  else if m.fle (FVal.fin 5) then FVal.fin 4
  else if m.fle (FVal.fin 10) then FVal.fin 10
  else if m.fle (FVal.fin 20) then FVal.fin 20
  else if m.fle (FVal.fin 100) then FVal.fin 100
  else m

/-- The per-score normalization step of `normalize_competencies` over `f64`. -/
def normalizeValue (scale original : FVal) : FVal :=
  if scale.fle (FVal.fin 0) then FVal.fin 0
  else ((original.fdiv scale).fmul (FVal.fin 100)).fclamp 0 100

structure CompetencyScore where
  name : List Char
  raw_score : FVal
  original_score : FVal

/-- `normalize_competencies` from report.rs over `f64` values, including the
`parse_numeric_score` step. -/
def normalize_competencies (scores : List ScoreInput) :
    List CompetencyScore × FVal :=
  let original_values := scores.map parse_numeric_score
  let scale := determine_scale original_values
  (scores.zip original_values |>.map (fun p =>
    ⟨p.1.name, normalizeValue scale p.2, p.2⟩), scale)

end FP

/-! ## Helper definitions and lemmas for the verification -/

/-- Numeric rank of the four rating labels, for stating monotonicity. -/
def ratingRank (label : String) : ℕ :=
  if label = "Sangat Baik" then 3
  else if label = "Baik" then 2
  else if label = "Kurang Baik" then 1
  else 0

/-- The band index of a total score (which of the four rating intervals it
falls in). -/
def bandIdx (t : ℚ) : ℕ :=
  if 80 ≤ t then 3 else if 70 ≤ t then 2 else if 60 ≤ t then 1 else 0

lemma ratingRank_rating (t : ℚ) :
    ratingRank (get_performance_rating t) = bandIdx t := by
  unfold get_performance_rating bandIdx
  split_ifs <;> rfl

lemma bandIdx_mono {a b : ℚ} (h : a ≤ b) : bandIdx a ≤ bandIdx b := by
  unfold bandIdx
  split_ifs <;> first | omega | (exfalso; linarith)

/-- The inferred scale is always strictly positive. -/
lemma determine_scale_pos (values : List ℚ) : 0 < determine_scale values := by
  simp only [determine_scale]
  split_ifs <;> linarith

/-! ## Claims -/

/-- C1: for every position type, behavioral result, quality result and
optional leadership result, the total score equals
`min(behavioral.subtotal + quality.subtotal + leadership_contribution, 85)`,
where the leadership contribution is the leadership result's weighted score
when the position is Eselon and a leadership result exists, else 0; hence
the total score is always at most 85. -/
theorem claim1_total_score (position_type : PositionType)
    (perilaku kualitas : ComponentResult)
    (leadership : Option LeadershipScoreResult) :
    calculate_total_score position_type perilaku kualitas leadership =
      min (perilaku.subtotal + kualitas.subtotal +
        (match position_type, leadership with
         | PositionType.Eselon, some l => l.weighted_score
         | _, _ => 0)) 85 ∧
    calculate_total_score position_type perilaku kualitas leadership ≤ 85 := by
  have hcap : TOTAL_CAP = (85 : ℚ) := by norm_num [TOTAL_CAP]
  constructor
  · cases position_type <;> cases leadership <;>
      simp [calculate_total_score, hcap]
  · have h1 : calculate_total_score position_type perilaku kualitas leadership ≤ TOTAL_CAP := by
      simp only [calculate_total_score]
      exact min_le_right _ _
    rw [hcap] at h1
    exact h1

/-- C7: the rating classifier is a total function of the total score with
inclusive lower bounds and no gaps or overlaps: "Sangat Baik" iff
`total ≥ 80`, "Baik" iff `70 ≤ total < 80`, "Kurang Baik" iff
`60 ≤ total < 70`, "Perlu Pembinaan" iff `total < 60`; it is monotone in
the total score, and a total of 68.6 (subtotals 20 + 35 + leadership 13.6)
yields "Kurang Baik". -/
theorem claim7_rating_bands (t : ℚ) :
    (get_performance_rating t = "Sangat Baik" ↔ 80 ≤ t) ∧
    (get_performance_rating t = "Baik" ↔ 70 ≤ t ∧ t < 80) ∧
    (get_performance_rating t = "Kurang Baik" ↔ 60 ≤ t ∧ t < 70) ∧
    (get_performance_rating t = "Perlu Pembinaan" ↔ t < 60) ∧
    (∀ t2 : ℚ, t ≤ t2 →
      ratingRank (get_performance_rating t) ≤ ratingRank (get_performance_rating t2)) ∧
    calculate_total_score PositionType.Eselon ⟨20, []⟩ ⟨35, []⟩
      (some ⟨80, 13.6, true⟩) = 68.6 ∧
    get_performance_rating 68.6 = "Kurang Baik" := by
  refine ⟨?_, ?_, ?_, ?_, ?_, ?_, ?_⟩
  · unfold get_performance_rating
    split_ifs <;> constructor <;> intro h <;>
      first
        | rfl
        | exact absurd h (by decide)
        | linarith
        | (constructor <;> linarith)
        | (exfalso; cases h; linarith)
  · unfold get_performance_rating
    split_ifs <;> constructor <;> intro h <;>
      first
        | rfl
        | exact absurd h (by decide)
        | linarith
        | (constructor <;> linarith)
        | (exfalso; cases h; linarith)
  · unfold get_performance_rating
    split_ifs <;> constructor <;> intro h <;>
      first
        | rfl
        | exact absurd h (by decide)
        | linarith
        | (constructor <;> linarith)
        | (exfalso; cases h; linarith)
  · unfold get_performance_rating
    split_ifs <;> constructor <;> intro h <;>
      first
        | rfl
        | exact absurd h (by decide)
        | linarith
        | (constructor <;> linarith)
        | (exfalso; cases h; linarith)
  · intro t2 ht
    rw [ratingRank_rating, ratingRank_rating]
    exact bandIdx_mono ht
  · show min ((20 : ℚ) + 35 + (13.6 : ℚ)) TOTAL_CAP = 68.6
    rw [min_eq_left (by norm_num [TOTAL_CAP])]
    norm_num
  · unfold get_performance_rating
    norm_num

/-- C7 witness: monotonicity instantiated at 60 ≤ 75. -/
theorem claim7_rating_bands_witness :
    ratingRank (get_performance_rating 60) ≤ ratingRank (get_performance_rating 75) :=
  (claim7_rating_bands 60).2.2.2.2.1 75 (by norm_num)

/-- C10: the inferred scale is strictly positive — one of 4, 10, 20, 100 or
a maximum greater than 100 — so the `scale ≤ 0` fallback branch of
`normalize_competencies` is unreachable: the normalized value is always the
clamped proportional form. -/
theorem claim10_scale_pos (values : List ℚ) :
    0 < determine_scale values ∧
    (determine_scale values = 4 ∨ determine_scale values = 10 ∨
     determine_scale values = 20 ∨ determine_scale values = 100 ∨
     100 < determine_scale values) ∧
    (∀ x : ℚ, normalizeValue (determine_scale values) x =
      clampQ 0 100 ((x / determine_scale values) * 100)) := by
  refine ⟨determine_scale_pos values, ?_, ?_⟩
  · simp only [determine_scale]
    split_ifs
    · norm_num
    · norm_num
    · norm_num
    · norm_num
    · norm_num
    · right; right; right; right; linarith
  · intro x
    unfold normalizeValue
    rw [if_neg (not_le.mpr (determine_scale_pos values))]

/-- C6: the leadership result is absent exactly for Staff; for Eselon
without performance data it is present with `applied = false` and zero
scores; for Eselon with performance data it is present with
`applied = true`, raw score the override clamped to 0–100 (default 80) and
weighted score `raw * 0.17`, i.e. 13.6 absent an override; and the
performance-data flag means at least one normalized score exists and some
section subtotal is positive. -/
theorem claim6_leadership (hasData : Bool) (ov : Option ℚ) :
    compute_leadership_score PositionType.Staff hasData ov = none ∧
    (compute_leadership_score PositionType.Eselon hasData ov).isSome = true ∧
    (hasData = false →
      compute_leadership_score PositionType.Eselon hasData ov =
        some ⟨0, 0, false⟩) ∧
    (hasData = true →
      compute_leadership_score PositionType.Eselon hasData ov =
        some ⟨clamp_score (ov.getD 80), clamp_score (ov.getD 80) * 0.17, true⟩) ∧
    (hasData = true → ov = none →
      compute_leadership_score PositionType.Eselon hasData ov =
        some ⟨80, 13.6, true⟩) ∧
    (∀ (ns : List CompetencyScore) (p k : ComponentResult),
      has_performance_data ns p k = true ↔
        ns ≠ [] ∧ (0 < p.subtotal ∨ 0 < k.subtotal)) := by
  refine ⟨rfl, ?_, ?_, ?_, ?_, ?_⟩
  · cases hasData <;> rfl
  · rintro rfl; rfl
  · rintro rfl
    simp only [compute_leadership_score, Bool.not_true, if_neg]
    norm_num [DEFAULT_LEADERSHIP_SCORE, LEADERSHIP_WEIGHT]
  · rintro rfl rfl
    simp only [compute_leadership_score, Option.getD]
    norm_num [DEFAULT_LEADERSHIP_SCORE, LEADERSHIP_WEIGHT, clamp_score, clampQ]
  · intro ns p k
    simp [has_performance_data, List.isEmpty_iff]

/-- C6 witness: Eselon with performance data and no override gets
`applied = true` and weighted score 13.6. -/
theorem claim6_leadership_witness :
    compute_leadership_score PositionType.Eselon true none =
      some ⟨80, 13.6, true⟩ :=
  (claim6_leadership true none).2.2.2.2.1 rfl rfl

/-- The floored maximum computed by `determine_scale`: the raw values
folded through `f64::max` starting from 0. -/
def mFloored (values : List ℚ) : ℚ :=
  values.foldl (fun current value => max current value) 0

lemma foldl_max_init_le (l : List ℚ) (a : ℚ) :
    a ≤ l.foldl (fun current value => max current value) a := by
  induction l generalizing a with
  | nil => exact le_refl a
  | cons b t ih => exact le_trans (le_max_left a b) (ih (max a b))

lemma mem_le_foldl_max (l : List ℚ) {v : ℚ} (hv : v ∈ l) : ∀ a : ℚ,
    v ≤ l.foldl (fun current value => max current value) a := by
  induction l with
  | nil => cases hv
  | cons b t ih =>
    intro a
    rcases List.mem_cons.mp hv with rfl | h
    · exact le_trans (le_max_right a v) (foldl_max_init_le t (max a v))
    · exact ih h (max a b)

lemma foldl_max_cases (l : List ℚ) (a : ℚ) :
    l.foldl (fun current value => max current value) a = a ∨
      l.foldl (fun current value => max current value) a ∈ l := by
  induction l generalizing a with
  | nil => exact Or.inl rfl
  | cons b t ih =>
    rcases ih (max a b) with h | h
    · rcases max_choice a b with hab | hab
      · exact Or.inl (h.trans hab)
      · exact Or.inr (List.mem_cons.mpr (Or.inl (h.trans hab)))
    · exact Or.inr (List.mem_cons.mpr (Or.inr h))

/-- C2: the Scale Normalizer's `max` is the maximum raw value floored at 0,
the inferred scale follows the ascending thresholds, each normalized value
is `clamp((raw/scale)*100, 0, 100)` (0 when the scale is nonpositive), a raw
score equal to the inferred scale normalizes to 100, and a raw 75 among
values whose floored maximum lies in (20, 100] normalizes to 75. -/
theorem claim2_scale_normalizer (entries : List (List Char × ℚ)) :
    (0 ≤ mFloored (entries.map Prod.snd) ∧
      (∀ v ∈ entries.map Prod.snd, v ≤ mFloored (entries.map Prod.snd)) ∧
      (mFloored (entries.map Prod.snd) = 0 ∨
        mFloored (entries.map Prod.snd) ∈ entries.map Prod.snd)) ∧
    (determine_scale (entries.map Prod.snd) =
      (if mFloored (entries.map Prod.snd) ≤ 0 then 100
       else if mFloored (entries.map Prod.snd) ≤ 5 then 4
       else if mFloored (entries.map Prod.snd) ≤ 10 then 10
       else if mFloored (entries.map Prod.snd) ≤ 20 then 20
       else if mFloored (entries.map Prod.snd) ≤ 100 then 100
       else mFloored (entries.map Prod.snd))) ∧
    (normalize_competencies entries).2 = determine_scale (entries.map Prod.snd) ∧
    ((normalize_competencies entries).1.map CompetencyScore.raw_score =
      (entries.map Prod.snd).map (fun x =>
        if determine_scale (entries.map Prod.snd) ≤ 0 then 0
        else clampQ 0 100 ((x / determine_scale (entries.map Prod.snd)) * 100))) ∧
    normalizeValue (determine_scale (entries.map Prod.snd))
      (determine_scale (entries.map Prod.snd)) = 100 ∧
    (20 < mFloored (entries.map Prod.snd) →
      mFloored (entries.map Prod.snd) ≤ 100 →
      normalizeValue (determine_scale (entries.map Prod.snd)) 75 = 75) := by
  set vals := entries.map Prod.snd with hvals
  refine ⟨⟨foldl_max_init_le vals 0, fun v hv => mem_le_foldl_max vals hv 0, ?_⟩,
    rfl, rfl, ?_, ?_, ?_⟩
  · exact foldl_max_cases vals 0
  · rw [hvals]
    simp only [normalize_competencies, List.map_map]
    rfl
  · have hpos := determine_scale_pos vals
    unfold normalizeValue
    rw [if_neg (not_le.mpr hpos), div_self (ne_of_gt hpos)]
    norm_num [clampQ]
  · intro h20 h100
    have hscale : determine_scale vals = 100 := by
      simp only [determine_scale, mFloored] at *
      rw [if_neg (by linarith), if_neg (by linarith), if_neg (by linarith),
        if_neg (by linarith), if_pos h100]
    rw [hscale]
    norm_num [normalizeValue, clampQ]

/-- C2 witness: raw values 75 and 90 have floored maximum 90 ∈ (20, 100],
so raw 75 normalizes to 75. -/
theorem claim2_scale_normalizer_witness :
    normalizeValue (determine_scale ([(['a'], (75 : ℚ)), (['b'], 90)].map Prod.snd)) 75 = 75 :=
  (claim2_scale_normalizer [(['a'], 75), (['b'], 90)]).2.2.2.2.2
    (by norm_num [mFloored]) (by norm_num [mFloored])

/-- Whether one score's normalized competency name contains the normalized
canonical name or any normalized alias as a substring. -/
def matchesParam (parameter : List Char) (aliases : List (List Char))
    (s : CompetencyScore) : Bool :=
  (normalize_text parameter :: aliases.map normalize_text).any
    (fun t => containsSub (normalize_text s.name) t)

/-- The Alias Matcher as the spec words it: scan the scores in list order
and return the clamped normalized value of the first match, 0 when no score
matches or the list is empty. -/
def findScoreSpec (scores : List CompetencyScore) (parameter : List Char)
    (aliases : List (List Char)) : ℚ :=
  match scores with
  | [] => 0
  | s :: rest =>
    if matchesParam parameter aliases s then clamp_score s.raw_score
    else findScoreSpec rest parameter aliases

lemma find_competency_score_nil (parameter : List Char)
    (aliases : List (List Char)) :
    find_competency_score [] parameter aliases = 0 := rfl

lemma find_competency_score_cons (parameter : List Char)
    (aliases : List (List Char)) (s : CompetencyScore)
    (rest : List CompetencyScore) :
    find_competency_score (s :: rest) parameter aliases =
      if matchesParam parameter aliases s then clamp_score s.raw_score
      else find_competency_score rest parameter aliases := by
  by_cases hs : matchesParam parameter aliases s = true
  · simp only [matchesParam] at hs
    simp [find_competency_score, List.find?, matchesParam, hs]
  · simp only [Bool.not_eq_true, matchesParam] at hs
    cases rest with
    | nil => simp [find_competency_score, List.find?, matchesParam, hs]
    | cons r rs => simp [find_competency_score, List.find?, matchesParam, hs]

lemma find_competency_score_eq_spec (scores : List CompetencyScore)
    (parameter : List Char) (aliases : List (List Char)) :
    find_competency_score scores parameter aliases =
      findScoreSpec scores parameter aliases := by
  induction scores with
  | nil => rfl
  | cons s rest ih =>
    rw [find_competency_score_cons, findScoreSpec, ih]

/-- C4: the Alias Matcher scans the scores in their original order; the
first score whose normalized name contains a normalized target yields its
normalized value clamped to 0–100; an empty list or no match yields 0; the
result always lies in [0, 100]. -/
theorem claim4_alias_matcher (parameter : List Char)
    (aliases : List (List Char)) :
    find_competency_score [] parameter aliases = 0 ∧
    (∀ (s : CompetencyScore) (rest : List CompetencyScore),
      find_competency_score (s :: rest) parameter aliases =
        if matchesParam parameter aliases s then clamp_score s.raw_score
        else find_competency_score rest parameter aliases) ∧
    (∀ scores : List CompetencyScore,
      find_competency_score scores parameter aliases =
        findScoreSpec scores parameter aliases) ∧
    (∀ scores : List CompetencyScore,
      (∀ s ∈ scores, matchesParam parameter aliases s = false) →
        find_competency_score scores parameter aliases = 0) ∧
    (∀ scores : List CompetencyScore,
      0 ≤ find_competency_score scores parameter aliases ∧
        find_competency_score scores parameter aliases ≤ 100) := by
  refine ⟨rfl, fun s rest => find_competency_score_cons parameter aliases s rest,
    fun scores => find_competency_score_eq_spec scores parameter aliases, ?_, ?_⟩
  · intro scores hnone
    induction scores with
    | nil => rfl
    | cons s rest ih =>
      rw [find_competency_score_cons, if_neg
        (by simp [hnone s (List.mem_cons_self s rest)]),
        ih (fun x hx => hnone x (List.mem_cons_of_mem s hx))]
  · intro scores
    induction scores with
    | nil =>
      rw [find_competency_score_nil]
      exact ⟨le_refl 0, by norm_num⟩
    | cons s rest ih =>
      rw [find_competency_score_cons]
      by_cases hs : matchesParam parameter aliases s
      · rw [if_pos hs]
        unfold clamp_score clampQ
        constructor
        · exact le_max_left 0 _
        · exact max_le (by norm_num) (min_le_left _ _)
      · rw [if_neg hs]
        exact ih

/-- C4 witness: a score list whose sole entry does not match yields 0. -/
theorem claim4_alias_matcher_witness :
    find_competency_score [⟨"Kreativitas".data, 90, 90⟩]
      "Kepemimpinan".data ["kepemimpinan".data, "leadership".data, "leader".data] = 0 :=
  (claim4_alias_matcher "Kepemimpinan".data
    ["kepemimpinan".data, "leadership".data, "leader".data]).2.2.2.1
    [⟨"Kreativitas".data, 90, 90⟩] (by decide)

/-- C5: each section calculator emits one ScoreComponent per rubric
parameter with weighted score `matched * weight / 100`, using the fixed
weights (behavioral 5, 5, 5, 5, 10; quality 25.5/42.5, 8.5/8.5, 8.5/8.5 for
Eselon/Staff), and its subtotal is `min(sum of weighted scores, cap)` with
caps 25.5, 42.5 (Eselon) and 70 (Staff); the subtotal never exceeds the
cap, and when every behavioral parameter matches a score of 100 the
behavioral subtotal is exactly 25.5. -/
theorem claim5_section_calculators (scores : List CompetencyScore)
    (position_type : PositionType) :
    (calculate_perilaku_kinerja scores).breakdown =
      PERILAKU_PARAMS.map (fun p =>
        ⟨p.parameter, find_competency_score scores p.parameter p.aliases,
          p.weight,
          find_competency_score scores p.parameter p.aliases * p.weight / 100⟩) ∧
    (calculate_perilaku_kinerja scores).breakdown.map
      ScoreComponent.weight_percentage = [5, 5, 5, 5, 10] ∧
    (calculate_perilaku_kinerja scores).subtotal =
      min (((calculate_perilaku_kinerja scores).breakdown.map
        ScoreComponent.weighted_score).sum) 25.5 ∧
    (calculate_perilaku_kinerja scores).subtotal ≤ 25.5 ∧
    (calculate_kualitas_kerja scores position_type).breakdown =
      KUALITAS_PARAMS.map (fun p =>
        ⟨p.parameter, find_competency_score scores p.parameter p.aliases,
          (match position_type with
           | PositionType.Eselon => p.eselon_weight
           | PositionType.Staff => p.staff_weight),
          find_competency_score scores p.parameter p.aliases *
            (match position_type with
             | PositionType.Eselon => p.eselon_weight
             | PositionType.Staff => p.staff_weight) / 100⟩) ∧
    (calculate_kualitas_kerja scores position_type).breakdown.map
      ScoreComponent.weight_percentage =
      (match position_type with
       | PositionType.Eselon => [25.5, 8.5, 8.5]
       | PositionType.Staff => [42.5, 8.5, 8.5]) ∧
    (calculate_kualitas_kerja scores position_type).subtotal =
      min (((calculate_kualitas_kerja scores position_type).breakdown.map
        ScoreComponent.weighted_score).sum)
        (match position_type with
         | PositionType.Eselon => 42.5
         | PositionType.Staff => 70.0) ∧
    (calculate_kualitas_kerja scores position_type).subtotal ≤
      (match position_type with
       | PositionType.Eselon => 42.5
       | PositionType.Staff => 70.0) ∧
    ((∀ p ∈ PERILAKU_PARAMS,
        find_competency_score scores p.parameter p.aliases = 100) →
      (calculate_perilaku_kinerja scores).subtotal = 25.5) := by
  refine ⟨rfl, rfl, rfl, min_le_right _ _, ?_, ?_, ?_, ?_, ?_⟩
  · cases position_type <;> rfl
  · cases position_type <;> rfl
  · cases position_type <;> rfl
  · cases position_type
    · exact min_le_right _ _
    · exact min_le_right _ _
  · intro h
    have h1 : find_competency_score scores "Inisiatif dan fleksibilitas".data
        ["inisiatif".data, "initiative".data, "fleksibilitas".data,
         "flexibility".data] = 100 :=
      h ⟨"Inisiatif dan fleksibilitas".data, 5,
        ["inisiatif".data, "initiative".data, "fleksibilitas".data,
         "flexibility".data]⟩ (by decide)
    have h2 : find_competency_score scores "Kehadiran dan ketepatan waktu".data
        ["kehadiran".data, "ketepatan waktu".data, "attendance".data,
         "punctuality".data, "absensi".data] = 100 :=
      h ⟨"Kehadiran dan ketepatan waktu".data, 5,
        ["kehadiran".data, "ketepatan waktu".data, "attendance".data,
         "punctuality".data, "absensi".data]⟩ (by decide)
    have h3 : find_competency_score scores "Kerjasama dan team work".data
        ["kerjasama".data, "team work".data, "teamwork".data,
         "kolaborasi".data, "team".data] = 100 :=
      h ⟨"Kerjasama dan team work".data, 5,
        ["kerjasama".data, "team work".data, "teamwork".data,
         "kolaborasi".data, "team".data]⟩ (by decide)
    have h4 : find_competency_score scores "Manajemen waktu kerja".data
        ["manajemen waktu".data, "time management".data] = 100 :=
      h ⟨"Manajemen waktu kerja".data, 5,
        ["manajemen waktu".data, "time management".data]⟩ (by decide)
    have h5 : find_competency_score scores "Kepemimpinan".data
        ["kepemimpinan".data, "leadership".data, "leader".data] = 100 :=
      h ⟨"Kepemimpinan".data, 10,
        ["kepemimpinan".data, "leadership".data, "leader".data]⟩ (by decide)
    simp only [calculate_perilaku_kinerja, PERILAKU_PARAMS, List.map_cons,
      List.map_nil, to_component, List.sum_cons, List.sum_nil]
    rw [h1, h2, h3, h4, h5]
    norm_num [PERILAKU_CAP, min_def]

/-- C5 witness: scores matching every behavioral parameter at 100 give a
behavioral subtotal of exactly 25.5. -/
theorem claim5_section_calculators_witness :
    (calculate_perilaku_kinerja
      [⟨"Inisiatif dan fleksibilitas".data, 100, 100⟩,
       ⟨"Kehadiran dan ketepatan waktu".data, 100, 100⟩,
       ⟨"Kerjasama dan team work".data, 100, 100⟩,
       ⟨"Manajemen waktu kerja".data, 100, 100⟩,
       ⟨"Kepemimpinan".data, 100, 100⟩]).subtotal = 25.5 := by
  have h := claim5_section_calculators
    [⟨"Inisiatif dan fleksibilitas".data, 100, 100⟩,
     ⟨"Kehadiran dan ketepatan waktu".data, 100, 100⟩,
     ⟨"Kerjasama dan team work".data, 100, 100⟩,
     ⟨"Manajemen waktu kerja".data, 100, 100⟩,
     ⟨"Kepemimpinan".data, 100, 100⟩] PositionType.Staff
  exact h.2.2.2.2.2.2.2.2 (by decide)

/-- The Position Classifier as the spec words it (for comparison with the
source-derived `determine_position_type`): staff keywords first, then
Eselon keywords, then the rank-code fallback; an empty normalized text
matches no keyword, so it falls through to the fallback. -/
def positionTypeSpec (e : Employee) : PositionType :=
  let normalized :=
    normalize_text (e.jabatan.getD [] ++ [' '] ++ e.sub_jabatan.getD [])
  if STAFF_KEYWORDS.any (fun k => containsSub normalized (normalize_text k)) then
    PositionType.Staff
  else if ESELON_KEYWORDS.any (fun k => containsSub normalized (normalize_text k)) then
    PositionType.Eselon
  else if golStartsWithIV e.gol then
    PositionType.Eselon
  else
    PositionType.Staff

/-- C3: the Position Classifier agrees with the spec's description — staff
keywords (checked first, so they take priority) then Eselon keywords on the
normalized concatenated role text, and when neither matches (in particular
when the text is empty) the rank-code fallback: Eselon iff the trimmed
rank code starts with "IV" case-insensitively; it always returns one of
the two values. -/
theorem claim3_position_classifier (e : Employee) :
    determine_position_type e = positionTypeSpec e ∧
    ((determine_position_type e = PositionType.Eselon ∧
        determine_position_type e ≠ PositionType.Staff) ∨
      (determine_position_type e = PositionType.Staff ∧
        determine_position_type e ≠ PositionType.Eselon)) := by
  constructor
  · simp only [determine_position_type, positionTypeSpec]
    rcases hn : normalize_text (e.jabatan.getD [] ++ [' '] ++ e.sub_jabatan.getD []) with
      _ | ⟨c, cs⟩
    · rw [show (STAFF_KEYWORDS.any fun k => containsSub [] (normalize_text k)) = false
          from by decide,
        show (ESELON_KEYWORDS.any fun k => containsSub [] (normalize_text k)) = false
          from by decide]
      simp
    · simp
  · cases h : determine_position_type e
    · exact Or.inl ⟨rfl, by simp⟩
    · exact Or.inr ⟨rfl, by simp⟩

/-- Whether a character list contains two consecutive whitespace
characters. -/
def hasTwoConsecutiveWs : List Char → Bool
  | [] => false
  | [_] => false
  | a :: b :: rest =>
    (isRustWhitespace a && isRustWhitespace b) || hasTwoConsecutiveWs (b :: rest)

/-- C9 counterexample: `normalize_text` does not collapse whitespace — on
"a  b" (two spaces) the output still contains two consecutive whitespace
characters, so the claimed no-consecutive-whitespace property is false. -/
theorem claim9_counterexample :
    hasTwoConsecutiveWs (normalize_text "a  b".data) = true := by decide

/-- C9 (amended): the shared text normalization strips combining marks via
NFD decomposition, lowercases, and keeps only alphabetic and whitespace
characters — every output character is ASCII-alphabetic or whitespace and
no combining mark survives — but it does not collapse whitespace: runs of
whitespace pass through unchanged. -/
theorem claim9_normalize_text (s : List Char) (c : Char)
    (hc : c ∈ normalize_text s) :
    (isAsciiAlphabetic c || isRustWhitespace c) = true ∧
    isCombiningMark c = false ∧
    normalize_text "a  b".data = "a  b".data ∧
    normalize_text "Étude  Staff".data = "etude  staff".data := by
  have hfilter := List.mem_filter.mp hc
  have hnotcm : ¬ isCombiningMark c = true := by
    intro hcm
    simp only [isCombiningMark, Bool.or_eq_true, Bool.and_eq_true,
      decide_eq_true_eq] at hcm
    have h2 := hfilter.2
    simp only [isAsciiAlphabetic, isRustWhitespace, Bool.or_eq_true,
      Bool.and_eq_true, decide_eq_true_eq, beq_iff_eq] at h2
    omega
  exact ⟨hfilter.2, Bool.eq_false_iff.mpr hnotcm, by decide, by decide⟩

/-- C9 witness: the amended theorem applied to the character 's' of the
normalization of "Staff". -/
theorem claim9_normalize_text_witness :
    (isAsciiAlphabetic 's' || isRustWhitespace 's') = true ∧
    isCombiningMark 's' = false ∧
    normalize_text "a  b".data = "a  b".data ∧
    normalize_text "Étude  Staff".data = "etude  staff".data :=
  claim9_normalize_text "Staff".data 's' (by decide)

/-- C8: the non-finite guard misses values parsed from raw text — a score
whose `numeric_value` is absent and whose `raw_value` is "NaN" (accepted by
Rust's `f64` parser) flows unguarded through `parse_numeric_score`, so
`determine_scale`'s max fold receives `NaN` and the resulting normalized
score is `NaN`, contradicting the claim that non-finite numeric input is
treated as 0 before any arithmetic. -/
theorem claim8_nonfinite_guard :
    FP.parse_numeric_score ⟨"Kepemimpinan".data, none, some FP.FVal.nan⟩ =
      FP.FVal.nan ∧
    (FP.normalize_competencies
        [⟨"Kepemimpinan".data, none, some FP.FVal.nan⟩]).1.map
      (fun s => s.raw_score) = [FP.FVal.nan] ∧
    (FP.normalize_competencies
        [⟨"Kepemimpinan".data, none, some FP.FVal.nan⟩]).2 = FP.FVal.fin 100 :=
  ⟨rfl, rfl, rfl⟩

end Report

